import Mathlib

/-!
Shallow embedding of the zedis per-connection scan / mutation engine
(`src/states/server/key.rs`, `src/states/server/value.rs`) together with the
parts of the state module that the repository does not ship under `src/`
(the `ZedisServerState` struct itself and its helpers `reset_scan`,
`extend_keys`, and the task-spawning `spawn`), which are modelled from the
specification where noted.

Machine integers: Rust `usize` counts are modelled as `Nat`, Rust `i64`
timestamps and TTLs as `Int`; none of the arithmetic here can overflow in
the source's domain, so no wrap-around is modelled.  Network requests are
modelled by explicit oracles (the response a request would have produced)
and every operation additionally returns the trace of store commands it
issued, so that claims about "the store is never contacted" are statable.
-/

namespace Zedis

/-- Key types, from `KeyType` in `src/states/server/value.rs`. -/
inductive KeyType where
  | unknown
  | string
  | list
  | set
  | zset
  | hash
  | stream
  | vectorset
deriving Repr, DecidableEq

/-- Conversion from the store's lowercase type name,
from `impl From<&str> for KeyType` in `src/states/server/value.rs`. -/
def KeyType.ofStr (value : String) : KeyType :=
  match value with
  | "list" => KeyType.list
  | "set" => KeyType.set
  | "zset" => KeyType.zset
  | "hash" => KeyType.hash
  | "stream" => KeyType.stream
  | "vectorset" => KeyType.vectorset
  | "string" => KeyType.string
  | _ => KeyType.unknown

/-- Value payload, from `RedisValueData` in `src/states/server/value.rs`.
List bytes/strings are kept abstract as strings. -/
inductive RedisValueData where
  | str (value : String)
  | bytes (value : List Nat)
  | list (size : Nat) (values : List String)
deriving Repr, DecidableEq

/-- A loaded value, from `RedisValue` in `src/states/server/value.rs`. -/
structure RedisValue where
  key_type : KeyType := KeyType.unknown
  data : Option RedisValueData := none
  expire_at : Option Int := none
  size : Nat := 0
deriving Repr, DecidableEq

/-- `RedisValue::default()`: all fields at their Rust defaults. -/
def RedisValue.dflt : RedisValue := {}

/-- Error type, from `src/error.rs` (only the shape used by the state
module: `Error::Invalid { message }` and the opaque store/connection
errors that `?` propagates). -/
inductive Err where
  | invalid (message : String)
  | store
deriving Repr, DecidableEq

/-- Store commands issued by the state module; one constructor per redis
command used in `key.rs` / `value.rs` / `list.rs` / `string.rs`. -/
inductive StoreCmd where
  | typeCmd (key : String)
  | ttlCmd (key : String)
  | getCmd (key : String)
  | llenCmd (key : String)
  | lrangeCmd (key : String) (start stop : Nat)
  | setCmd (key value : String)
  | expireCmd (key : String) (secs : Nat)
  | delCmd (key : String)
  | scanCmd (pattern : String) (count : Nat)
deriving Repr, DecidableEq

/-- The key map `keys: BTreeMap<String, KeyType>` is modelled as an
association list without duplicate keys (all operations below insert a
key only when absent). -/
abbrev KeyMap := List (String × KeyType)

/-- Map membership test. -/
def containsKey (m : KeyMap) (k : String) : Bool :=
  m.any (fun p => p.1 == k)

/-- Map lookup. -/
def lookupKey (m : KeyMap) (k : String) : Option KeyType :=
  (m.find? (fun p => p.1 == k)).map Prod.snd

/-- `keys.get_mut(key)` followed by an assignment: update the entry if
present, otherwise leave the map unchanged. -/
def setKeyType (m : KeyMap) (k : String) (t : KeyType) : KeyMap :=
  m.map (fun p => if p.1 == k then (p.1, t) else p)

/-- `keys.remove(&key)` on the `BTreeMap`. -/
def removeKey (m : KeyMap) (k : String) : KeyMap :=
  m.filter (fun p => p.1 != k)

/-- Modelled from the spec: the `ZedisServerState` struct itself lives in
the state module (`src/states/server/mod.rs`) that is absent from `src/`;
its fields are reconstructed from §3 of the spec and from every field
access in the four files under `src/states/server/`.  `key_tree_id`
(`treeVersion`) is a `Uuid::now_v7()` in the source; regeneration is
modelled as incrementing a counter, so "regenerated" coincides with
"changed". -/
structure ServerState where
  server : String
  keyword : String
  cursors : Option (List Nat)
  scan_times : Nat
  scan_completed : Bool
  scaning : Bool
  keys : KeyMap
  key_tree_id : Nat
  loaded_prefixes : List String
  key : Option String
  value : Option RedisValue
  deleting : Bool
  updating : Bool
  last_operated_at : Int
deriving Repr, DecidableEq

/-- Modelled from the spec: `ZedisServerState::extend_keys` (state module
missing from `src/`).  §4.1 step 3: "merge returned keys into `keys`
(type `Unknown` if new)"; §3: `treeVersion` is "regenerated whenever
`keys` changes in a way that invalidates any cached tree projection", so
the id is regenerated exactly when at least one key was added. -/
def extend_keys (s : ServerState) (new : List String) : ServerState :=
  let keys' := new.foldl
    (fun m k => if containsKey m k then m else m ++ [(k, KeyType.unknown)]) s.keys
  { s with
    keys := keys'
    key_tree_id :=
      if keys'.length == s.keys.length then s.key_tree_id else s.key_tree_id + 1 }

/-- Modelled from the spec: `ZedisServerState::reset_scan` (state module
missing from `src/`).  §3 lifecycle: "reset (keys cleared, cursors
cleared, flags reset) whenever a new filter is submitted"; clearing
`keys` invalidates any cached tree projection, so the tree id is
regenerated. -/
def reset_scan (s : ServerState) : ServerState :=
  { s with
    keys := []
    cursors := none
    scan_times := 0
    scan_completed := false
    scaning := false
    loaded_prefixes := []
    key_tree_id := s.key_tree_id + 1 }

/-- `DEFAULT_SCAN_RESULT_MAX` from `src/states/server/key.rs`. -/
def DEFAULT_SCAN_RESULT_MAX : Nat := 1000

/-- The outcome of one page request of a scan chain: either a new cursor
set together with the page's keys (`client.scan` / `client.first_scan`
succeeded), or a request failure. -/
inductive PageResult where
  | ok (cursors : List Nat) (keys : List String)
  | err
deriving Repr, DecidableEq

/-- The data a scan-chain page task closes over at spawn time in
`ZedisServerState::scan_keys`: `processing_server`, `processing_keyword`
and the cap `max = (scan_times + 1) * DEFAULT_SCAN_RESULT_MAX`. -/
structure PendingScan where
  server : String
  keyword : String
  mx : Nat
deriving Repr, DecidableEq

/-- Result of driving a scan chain against a list of page responses. -/
structure ScanRun where
  /-- state after the run -/
  state : ServerState
  /-- number of page responses applied -/
  pages : Nat
  /-- a page request was issued whose response is not in the list -/
  pendingReq : Bool
  /-- the chain terminated through the completion path
  (`scaning = false` was set) -/
  finished : Bool
  /-- the completion path invoked `fill_key_types(cx, "")` -/
  fillTriggered : Bool
deriving Repr, DecidableEq

/-- The first half of the `scan_keys` result callback
(`src/states/server/key.rs` lines 115-129): on `Ok`, a cursor set summing
to zero marks the scan completed and clears the cursor, otherwise the new
cursor set is stored, and the page's keys are merged; on `Err`, the
cursor is cleared. -/
def scan_page_apply (r : PageResult) (s : ServerState) : ServerState :=
  match r with
  | PageResult.ok cs ks =>
    let s1 :=
      if cs.sum = 0 then { s with scan_completed := true, cursors := none }
      else { s with cursors := some cs }
    extend_keys s1 ks
  | PageResult.err => { s with cursors := none }

/-- `ZedisServerState::scan_keys` driven against a list of page
responses, answering the chain's page requests in order.  The function
mirrors the source: the generation guard (`self.server != server ||
self.keyword != keyword` returns immediately), the cap computed at spawn
time, the result callback `scan_page_apply`, the continuation condition
`cursors.is_some() && keys.len() < max`, and the termination path that
resets `scaning` and triggers `fill_key_types`.  An empty response list
means the spawned request is still in flight (`pendingReq`). -/
def scan_keys_run (server keyword : String) (responses : List PageResult)
    (s : ServerState) : ScanRun :=
  if s.server = server ∧ s.keyword = keyword then
    match responses with
    | [] => ⟨s, 0, true, false, false⟩
    | r :: rest =>
      let mx := (s.scan_times + 1) * DEFAULT_SCAN_RESULT_MAX
      let s' := scan_page_apply r s
      if s'.cursors.isSome ∧ s'.keys.length < mx then
        let run := scan_keys_run server keyword rest s'
        ⟨run.state, run.pages + 1, run.pendingReq, run.finished, run.fillTriggered⟩
      else
        ⟨{ s' with scaning := false }, 1, false, true, true⟩
  else ⟨s, 0, false, false, false⟩

/-- `ZedisServerState::scan`: reset, mark `scaning`, store the new
keyword, and start the chain; the returned `PendingScan` is the context
the first page task closes over (the entry guard of `scan_keys` passes
trivially here, so the request is always issued). -/
def scan_start (kw : String) (s : ServerState) : ServerState × PendingScan :=
  let s1 := { reset_scan s with scaning := true, keyword := kw }
  (s1, { server := s1.server, keyword := kw,
         mx := (s1.scan_times + 1) * DEFAULT_SCAN_RESULT_MAX })

/-- `ZedisServerState::scan_next`: a no-op when the scan is completed;
otherwise increments `scan_times` and re-enters `scan_keys`. -/
def scan_next (responses : List PageResult) (s : ServerState) : ScanRun :=
  if s.scan_completed then ⟨s, 0, false, false, false⟩
  else
    scan_keys_run s.server s.keyword responses
      { s with scan_times := s.scan_times + 1 }

/-- Modelled from the spec: delivery of an in-flight scan page response
through `ZedisServerState::spawn` (state module missing from `src/`).
§4.2/§5: a superseded chain's page response, once delivered, is checked
against the current (connection identity, filter) generation and dropped
without mutating state; a response that passes the check runs the
`scan_keys` result callback from the source, whose continuation re-enters
`scan_keys_run` on the remaining responses. -/
def deliver_page (p : PendingScan) (r : PageResult) (rest : List PageResult)
    (s : ServerState) : ScanRun :=
  if s.server = p.server ∧ s.keyword = p.keyword then
    let s' := scan_page_apply r s
    if s'.cursors.isSome ∧ s'.keys.length < p.mx then
      let run := scan_keys_run p.server p.keyword rest s'
      ⟨run.state, run.pages + 1, run.pendingReq, run.finished, run.fillTriggered⟩
    else
      ⟨{ s' with scaning := false }, 1, false, true, true⟩
  else ⟨s, 0, false, false, false⟩

/-- Rust `key.strip_prefix(pre)`: the suffix when `pre` is a prefix of
`key` (expressed over the character lists so that it evaluates by
kernel reduction). -/
def stripPre (pre key : String) : Option String :=
  if pre.data.isPrefixOf key.data then
    some (String.mk (key.data.drop pre.data.length))
  else none

/-- Rust `suffix.contains(":")` for the one-character pattern used by
the source. -/
def containsChar (s : String) (c : Char) : Bool :=
  s.data.contains c

/-- Insert into a sorted list of strings. -/
def insertSorted (a : String) : List String → List String
  | [] => [a]
  | b :: t => if a ≤ b then a :: b :: t else b :: insertSorted a t

/-- Ascending insertion sort on strings; since string order is total and
antisymmetric this yields the same list as the source's `sort_unstable`. -/
def sortStrings : List String → List String
  | [] => []
  | a :: t => insertSorted a (sortStrings t)

/-- The selection step of `ZedisServerState::fill_key_types`
(`src/states/server/key.rs` lines 36-54): the keys still `Unknown` whose
suffix after the prefix contains no `:` separator, sorted
(`sort_unstable`; the sort only fixes the order of the TYPE requests). -/
def fill_select (pre : String) (s : ServerState) : List String :=
  sortStrings (s.keys.filterMap (fun p =>
    if p.2 != KeyType.unknown then none
    else
      match stripPre pre p.1 with
      | none => none
      | some suffix => if containsChar suffix ':' then none else some p.1))

/-- The result callback of `fill_key_types` (lines 79-89): on `Ok`, each
returned `(key, type-name)` pair updates the entry if the key is still
present, and the tree id is regenerated once for the whole batch; on
`Err` nothing changes. -/
def fill_apply (types : List (String × String)) (s : ServerState) : ServerState :=
  { s with
    keys := types.foldl (fun m p => setKeyType m p.1 (KeyType.ofStr p.2)) s.keys
    key_tree_id := s.key_tree_id + 1 }

/-- `ZedisServerState::fill_key_types` end to end: an empty selection
returns before spawning; otherwise the task issues one TYPE request per
selected key (an individual TYPE failure yields the empty string via
`unwrap_or_default`, covered by the `typeOf` oracle) and the callback
applies the batch.  `connOk = false` is the task failing at
`get_connection`, in which case the callback changes nothing. -/
def fill_key_types (connOk : Bool) (typeOf : String → String) (pre : String)
    (s : ServerState) : ServerState :=
  let ks := fill_select pre s
  if ks.isEmpty then s
  else if connOk then fill_apply (ks.map (fun k => (k, typeOf k))) s
  else s

/-- `ZedisServerState::select_key` entry (`src/states/server/key.rs`
lines 205-215): a request is spawned only when the requested key differs
from the current selection (`self.key.clone().unwrap_or_default() !=
key`) and is non-empty.  Returns the new state and whether the value
fetch task was spawned. -/
def select_key (key : String) (opTime : Int) (s : ServerState) :
    ServerState × Bool :=
  if (s.key.getD "") ≠ key then
    let s1 := { s with key := some key }
    if key = "" then (s1, false)
    else ({ s1 with last_operated_at := opTime }, true)
  else (s, false)

/-- The value-fetch task of `select_key` (lines 218-252).  TYPE and TTL
are pipelined in a single request; `ttl = -2` short-circuits with an
empty default value tagged `expire_at = -2`; otherwise the key type
dispatches to `get_redis_value` (String) or `first_load_list_value`
(List), whose results stand behind the `stringFetch` / `listFetch`
oracles, and any other type fails with a validation error without
issuing further commands.  The returned trace lists the commands each
taken branch issues (`connOk` covers `get_connection`, `pipeOk` the
pipelined request itself). -/
def select_key_task (key : String) (connOk pipeOk : Bool) (typeResp : String)
    (ttlResp : Int) (now : Int) (stringFetch listFetch : Except Err RedisValue) :
    List StoreCmd × Except Err RedisValue :=
  if ¬connOk then ([], Except.error Err.store)
  else
    let pipeCmds := [StoreCmd.typeCmd key, StoreCmd.ttlCmd key]
    if ¬pipeOk then (pipeCmds, Except.error Err.store)
    else if ttlResp = -2 then
      (pipeCmds, Except.ok { RedisValue.dflt with expire_at := some (-2) })
    else
      let expire_at : Option Int :=
        if ttlResp = -1 then some (-1)
        else if 0 ≤ ttlResp then some (now + ttlResp) else none
      let fetched : List StoreCmd × Except Err RedisValue :=
        match KeyType.ofStr typeResp with
        | KeyType.string => ([StoreCmd.getCmd key], stringFetch)
        | KeyType.list =>
          ([StoreCmd.llenCmd key, StoreCmd.lrangeCmd key 0 99], listFetch)
        | _ => ([], Except.error (Err.invalid "unsupported key type"))
      match fetched.2 with
      | Except.error e => (pipeCmds ++ fetched.1, Except.error e)
      | Except.ok v => (pipeCmds ++ fetched.1, Except.ok { v with expire_at := expire_at })

/-- The result callback of `select_key` (lines 253-263): the fetched
value is stored on `Ok` and the selection's value cleared on `Err`. -/
def select_key_apply (result : Except Err RedisValue) (s : ServerState) :
    ServerState :=
  match result with
  | Except.ok v => { s with value := some v }
  | Except.error _ => { s with value := none }

/-- `ZedisServerState::delete_key` (`src/states/server/key.rs` lines
267-291) end to end: the busy flag is set, a DEL is issued (`ok` is its
outcome), and the callback removes the key, regenerates the tree id and
clears the selection on success, then always clears the busy flag. -/
def delete_key (key : String) (ok : Bool) (opTime : Int) (s : ServerState) :
    ServerState :=
  let s1 := { s with deleting := true, last_operated_at := opTime }
  if ok then
    { s1 with
      keys := removeKey s1.keys key
      key_tree_id := s1.key_tree_id + 1
      key := none
      deleting := false }
  else { s1 with deleting := false }

/-- The task of `ZedisServerState::update_value_ttl`
(`src/states/server/value.rs` lines 187-197): obtain a connection
(`connOk`; modelled from the spec as a pooled handle obtained without
issuing any store command, per §6 "obtain a usable, possibly-pooled
connection" — the `crate::connection` module is missing from `src/`),
then parse the human duration, a failure surfacing as `Error::Invalid`
before any command, then issue the EXPIRE. -/
def update_value_ttl_task (key : String) (connOk : Bool)
    (parseResult : Except String Nat) (expireOk : Bool) :
    List StoreCmd × Except Err Nat :=
  if ¬connOk then ([], Except.error Err.store)
  else
    match parseResult with
    | Except.error m => ([], Except.error (Err.invalid m))
    | Except.ok secs =>
      ([StoreCmd.expireCmd key secs],
       if expireOk then Except.ok secs else Except.error Err.store)

/-- `ZedisServerState::update_value_ttl` end to end (lines 179-209): the
busy flag is set, the task runs, and the callback sets the loaded
value's `expire_at` to `now + secs` when the task succeeded and a value
is loaded, then always clears the busy flag.  Returns the final state,
the store-command trace and the task result. -/
def update_value_ttl (key : String) (connOk : Bool)
    (parseResult : Except String Nat) (expireOk : Bool) (now opTime : Int)
    (s : ServerState) : ServerState × List StoreCmd × Except Err Nat :=
  let s1 := { s with updating := true, last_operated_at := opTime }
  let out := update_value_ttl_task key connOk parseResult expireOk
  let s2 :=
    match out.2, s1.value with
    | Except.ok secs, some v =>
      { s1 with value := some { v with expire_at := some (now + secs) },
                updating := false }
    | _, _ => { s1 with updating := false }
  (s2, out.1, out.2)

/-- The private page loop of `ZedisServerState::scan_prefix`
(`src/states/server/key.rs` lines 175-191): at most 20 rounds, each
consuming one page response; an error anywhere makes the whole task fail
(`?` propagation), a zero-sum cursor set breaks out, and keys are
accumulated locally.  `none` means the loop is still awaiting a
response. -/
def scan_prefix_loop : Nat → List String → List PageResult →
    Option (Except Unit (List String))
  | 0, acc, _ => some (Except.ok acc)
  | _ + 1, _, [] => none
  | n + 1, acc, r :: rest =>
    match r with
    | PageResult.err => some (Except.error ())
    | PageResult.ok cs ks =>
      if cs.sum = 0 then some (Except.ok (acc ++ ks))
      else scan_prefix_loop n (acc ++ ks) rest

/-- `ZedisServerState::scan_prefix` end to end (lines 156-203): an
already-loaded prefix returns immediately; a completed scan only
re-resolves types for the prefix; otherwise the private loop runs and
the callback merges all accumulated keys in one step and marks the
prefix loaded only on success.  The second component tells whether
`fill_key_types(cx, prefix)` was invoked (the callback triggers it on
success and on failure alike; the completed-scan path calls it
directly). -/
def scan_prefix_op (pre : String) (responses : List PageResult) (opTime : Int)
    (s : ServerState) : ServerState × Bool :=
  if s.loaded_prefixes.contains pre then (s, false)
  else if s.scan_completed then (s, true)
  else
    let s1 := { s with last_operated_at := opTime }
    match scan_prefix_loop 20 [] responses with
    | none => (s1, false)
    | some (Except.error _) => (s1, true)
    | some (Except.ok ks) =>
      (extend_keys { s1 with loaded_prefixes := pre :: s1.loaded_prefixes } ks,
       true)

/-- A concrete state used to instantiate witnesses. -/
def baseState : ServerState :=
  { server := "srv", keyword := "", cursors := none, scan_times := 0,
    scan_completed := false, scaning := false, keys := [], key_tree_id := 0,
    loaded_prefixes := [], key := none, value := none, deleting := false,
    updating := false, last_operated_at := 0 }

/-- The per-entry effect of a whole type-resolution batch. -/
def pointUpd (types : List (String × String)) (q : String × KeyType) :
    String × KeyType :=
  types.foldl
    (fun q p => if q.1 == p.1 then (q.1, KeyType.ofStr p.2) else q) q

/-- A concrete state for C3: a single still-unclassified key. -/
def c3state : ServerState := { baseState with keys := [("x", KeyType.unknown)] }

/-- Observable projection: the state with the opaque tree-version token
normalized away.  `treeVersion` is a cache-invalidation token
(`Uuid::now_v7()` in the source), not observable data, so two states are
observably equal when they agree after stripping it. -/
def stripId (s : ServerState) : ServerState := { s with key_tree_id := 0 }

/-! ### Helper lemmas -/

theorem lookupKey_cons (p : String × KeyType) (m : KeyMap) (k : String) :
    lookupKey (p :: m) k = if p.1 = k then some p.2 else lookupKey m k := by
  by_cases h : p.1 = k
  · rw [if_pos h]
    unfold lookupKey
    rw [List.find?_cons_of_pos _ (by simpa using h)]
    rfl
  · rw [if_neg h]
    unfold lookupKey
    rw [List.find?_cons_of_neg _ (by simpa using h)]

theorem removeKey_cons (p : String × KeyType) (m : KeyMap) (k : String) :
    removeKey (p :: m) k =
      if p.1 = k then removeKey m k else p :: removeKey m k := by
  by_cases h : p.1 = k <;> simp [removeKey, List.filter_cons, h]

theorem lookupKey_removeKey_self (m : KeyMap) (k : String) :
    lookupKey (removeKey m k) k = none := by
  induction m with
  | nil => rfl
  | cons p m ih =>
    rw [removeKey_cons]
    by_cases h : p.1 = k
    · rw [if_pos h]
      exact ih
    · rw [if_neg h, lookupKey_cons, if_neg h]
      exact ih

theorem lookupKey_removeKey_ne (m : KeyMap) (k k' : String) (h : k' ≠ k) :
    lookupKey (removeKey m k) k' = lookupKey m k' := by
  induction m with
  | nil => rfl
  | cons p m ih =>
    rw [removeKey_cons, lookupKey_cons]
    by_cases h1 : p.1 = k
    · rw [if_pos h1, ih]
      have h2 : ¬ p.1 = k' := by
        rw [h1]
        exact fun e => h e.symm
      rw [if_neg h2]
    · rw [if_neg h1, lookupKey_cons]
      by_cases h2 : p.1 = k'
      · rw [if_pos h2, if_pos h2]
      · rw [if_neg h2, if_neg h2]
        exact ih

/-! ### C9 -/

/-- C9: `select_key` spawns a value fetch if and only if the requested
key differs from the currently selected key (empty selection reading as
the empty string, per `unwrap_or_default`) and is non-empty; calling it
with the already-selected key returns the state unchanged with no
request; selecting the empty string only updates the selection without
spawning a fetch. -/
theorem C9_select_key_frame (s : ServerState) (key : String) (t : Int) :
    ((select_key key t s).2 = true ↔ (s.key.getD "" ≠ key ∧ key ≠ "")) ∧
    (s.key.getD "" = key → select_key key t s = (s, false)) ∧
    (s.key.getD "" ≠ key → key = "" →
      select_key key t s = ({ s with key := some key }, false)) := by
  by_cases h1 : s.key.getD "" = key
  · simp [select_key, h1]
  · by_cases h2 : key = ""
    · subst h2
      simp [select_key, h1]
    · simp [select_key, h1, h2]

/-- Witness for C9 at a concrete input. -/
theorem C9_select_key_frame_witness :
    (({ server := "s", keyword := "", cursors := none, scan_times := 0,
        scan_completed := false, scaning := false, keys := [],
        key_tree_id := 0, loaded_prefixes := [], key := some "a",
        value := none, deleting := false, updating := false,
        last_operated_at := 0 } : ServerState).key.getD "" = "a") ∧
    (select_key "a" 7
      { server := "s", keyword := "", cursors := none, scan_times := 0,
        scan_completed := false, scaning := false, keys := [],
        key_tree_id := 0, loaded_prefixes := [], key := some "a",
        value := none, deleting := false, updating := false,
        last_operated_at := 0 } =
      ({ server := "s", keyword := "", cursors := none, scan_times := 0,
         scan_completed := false, scaning := false, keys := [],
         key_tree_id := 0, loaded_prefixes := [], key := some "a",
         value := none, deleting := false, updating := false,
         last_operated_at := 0 }, false)) :=
  ⟨by decide,
   (C9_select_key_frame
     { server := "s", keyword := "", cursors := none, scan_times := 0,
       scan_completed := false, scaning := false, keys := [],
       key_tree_id := 0, loaded_prefixes := [], key := some "a",
       value := none, deleting := false, updating := false,
       last_operated_at := 0 } "a" 7).2.1 (by decide)⟩

/-! ### C4 -/

/-- C4 counterexample: the claim "if the deleted key was the selected
key, selection and its loaded value are cleared (selection of a
different key is untouched)" is false on the code.  First conjunct:
deleting "k" while "other" is selected still clears the selection.
Second conjunct: deleting the selected key leaves the loaded value in
place. -/
theorem C4_counterexample :
    (delete_key "k" true 0
        { baseState with
          keys := [("k", KeyType.string)],
          key := some "other" }).key = none ∧
    (delete_key "k" true 0
        { baseState with
          keys := [("k", KeyType.string)],
          key := some "k",
          value := some { RedisValue.dflt with
            key_type := KeyType.string } }).value =
      some { RedisValue.dflt with key_type := KeyType.string } := by
  exact ⟨rfl, rfl⟩

/-- C4 as amended: on a successful delete exactly the deleted key is
removed from `keys`, the tree id is regenerated, the selection is
cleared unconditionally (whichever key was selected) while the loaded
value is left in place; on failure `keys` and the selection are
unchanged; the delete busy flag is cleared in both cases. -/
theorem C4_amended_delete (s : ServerState) (key : String) (ok : Bool)
    (t : Int) :
    (ok = true →
      lookupKey (delete_key key ok t s).keys key = none ∧
      (∀ k, k ≠ key →
        lookupKey (delete_key key ok t s).keys k = lookupKey s.keys k) ∧
      (delete_key key ok t s).key_tree_id ≠ s.key_tree_id ∧
      (delete_key key ok t s).key = none ∧
      (delete_key key ok t s).value = s.value) ∧
    (ok = false →
      (delete_key key ok t s).keys = s.keys ∧
      (delete_key key ok t s).key = s.key ∧
      (delete_key key ok t s).value = s.value) ∧
    (delete_key key ok t s).deleting = false := by
  cases ok with
  | false => simp [delete_key]
  | true =>
    refine ⟨fun _ => ⟨?_, ?_, ?_, rfl, rfl⟩, ?_, rfl⟩
    · exact lookupKey_removeKey_self _ _
    · exact fun k hk => lookupKey_removeKey_ne _ _ _ hk
    · show s.key_tree_id + 1 ≠ s.key_tree_id
      omega
    · intro h
      exact absurd h (by simp)

/-- Witness for C4's amended theorem at a concrete input. -/
theorem C4_amended_delete_witness :
    lookupKey (delete_key "k" true 0
        { baseState with keys := [("k", KeyType.string)] }).keys "k" = none ∧
    (delete_key "k" true 0
        { baseState with keys := [("k", KeyType.string)] }).deleting = false :=
  ⟨((C4_amended_delete { baseState with keys := [("k", KeyType.string)] }
      "k" true 0).1 rfl).1,
   (C4_amended_delete { baseState with keys := [("k", KeyType.string)] }
      "k" true 0).2.2⟩

/-! ### C5 -/

/-- C5: a setTTL call whose duration string does not parse fails with a
validation error and issues no store command; a call whose duration
parses and whose EXPIRE succeeds updates the loaded value's `expire_at`
to `now + secs`; the update busy flag is cleared in every case.
(`connOk = true`: the pooled connection handle is available.) -/
theorem C5_ttl_validation (key m : String) (parseResult : Except String Nat)
    (expireOk : Bool) (now opTime : Int) (s : ServerState) :
    (parseResult = Except.error m →
      (update_value_ttl key true parseResult expireOk now opTime s).2.1 = [] ∧
      (update_value_ttl key true parseResult expireOk now opTime s).2.2 =
        Except.error (Err.invalid m)) ∧
    (∀ secs v, parseResult = Except.ok secs → expireOk = true →
      s.value = some v →
      (update_value_ttl key true parseResult expireOk now opTime s).1.value =
        some { v with expire_at := some (now + secs) }) ∧
    (update_value_ttl key true parseResult expireOk now opTime s).1.updating =
      false := by
  cases parseResult with
  | error e =>
    refine ⟨fun h => ?_, ?_, ?_⟩
    · injection h with he
      subst he
      exact ⟨rfl, rfl⟩
    · intro secs v h
      exact absurd h (by simp)
    · simp [update_value_ttl, update_value_ttl_task]
  | ok secs0 =>
    refine ⟨?_, ?_, ?_⟩
    · intro h
      exact absurd h (by simp)
    · intro secs v h hx hv
      injection h with he
      subst he
      subst hx
      simp [update_value_ttl, update_value_ttl_task, hv]
    · cases expireOk <;> cases hv : s.value <;>
        simp [update_value_ttl, update_value_ttl_task, hv]

/-- Witness for C5 at a concrete input: an unparsable duration. -/
theorem C5_ttl_validation_witness :
    (update_value_ttl "k" true (Except.error "bad duration") true 5 0
        baseState).2.1 = [] ∧
    (update_value_ttl "k" true (Except.error "bad duration") true 5 0
        baseState).2.2 = Except.error (Err.invalid "bad duration") :=
  (C5_ttl_validation "k" "bad duration" (Except.error "bad duration") true 5 0
      baseState).1 rfl

/-! ### C7 -/

/-- C7: when a page request of a scan chain fails, the stored cursor set
is cleared, the chain ends after that single response (no further page
is requested or applied, `pendingReq = false` and only one page
consumed), keys merged from earlier pages are kept (every field other
than `cursors` and `scaning` is untouched), the scanning flag is reset
and the terminating path triggers type resolution. -/
theorem C7_scan_error (server keyword : String) (s : ServerState)
    (junk : List PageResult) (h1 : s.server = server)
    (h2 : s.keyword = keyword) :
    scan_keys_run server keyword (PageResult.err :: junk) s =
      ⟨{ s with cursors := none, scaning := false }, 1, false, true, true⟩ := by
  unfold scan_keys_run
  simp [h1, h2, scan_page_apply]

/-- Witness for C7 at a concrete input. -/
theorem C7_scan_error_witness :
    scan_keys_run "srv" "" (PageResult.err :: [PageResult.ok [3] ["x"]])
        { baseState with
          scaning := true,
          cursors := some [7],
          keys := [("a", KeyType.unknown)] } =
      ⟨{ baseState with
         scaning := false,
         cursors := none,
         keys := [("a", KeyType.unknown)] }, 1, false, true, true⟩ :=
  C7_scan_error "srv" ""
    { baseState with
      scaning := true,
      cursors := some [7],
      keys := [("a", KeyType.unknown)] }
    [PageResult.ok [3] ["x"]] rfl rfl

/-! ### C3 -/

theorem mem_insertSorted (a x : String) (l : List String) :
    x ∈ insertSorted a l ↔ x = a ∨ x ∈ l := by
  induction l with
  | nil => simp [insertSorted]
  | cons b t ih =>
    by_cases hab : a ≤ b
    · simp [insertSorted, hab]
    · simp [insertSorted, hab, ih]
      tauto

theorem mem_sortStrings (x : String) (l : List String) :
    x ∈ sortStrings l ↔ x ∈ l := by
  induction l with
  | nil => simp [sortStrings]
  | cons a t ih => simp [sortStrings, mem_insertSorted, ih]

theorem fill_apply_keys (types : List (String × String)) (m : KeyMap) :
    types.foldl (fun m p => setKeyType m p.1 (KeyType.ofStr p.2)) m =
      m.map (pointUpd types) := by
  induction types generalizing m with
  | nil => exact (List.map_id m).symm
  | cons p rest ih =>
    rw [List.foldl_cons, ih, setKeyType, List.map_map]
    congr 1

theorem pointUpd_fst (types : List (String × String)) (q : String × KeyType) :
    (pointUpd types q).1 = q.1 := by
  induction types generalizing q with
  | nil => rfl
  | cons p rest ih =>
    show (pointUpd rest
      (if q.1 == p.1 then (q.1, KeyType.ofStr p.2) else q)).1 = q.1
    rw [ih]
    by_cases hb : q.1 == p.1 <;> simp [hb]

theorem pointUpd_unknown : ∀ (types : List (String × String))
    (q : String × KeyType),
    (∀ p ∈ types, p.1 = q.1 → KeyType.ofStr p.2 ≠ KeyType.unknown) →
    (pointUpd types q).2 = KeyType.unknown →
    q.2 = KeyType.unknown ∧ ∀ p ∈ types, p.1 ≠ q.1 := by
  intro types
  induction types with
  | nil =>
    intro q h hu
    exact ⟨hu, by simp⟩
  | cons p rest ih =>
    intro q h hu
    have hstep : pointUpd (p :: rest) q =
        pointUpd rest (if q.1 == p.1 then (q.1, KeyType.ofStr p.2) else q) :=
      rfl
    by_cases hb : q.1 = p.1
    · have hbq : (q.1 == p.1) = true := beq_iff_eq.mpr hb
      rw [hstep, if_pos hbq] at hu
      have hp2 : KeyType.ofStr p.2 ≠ KeyType.unknown :=
        h p (List.mem_cons_self p rest) hb.symm
      have hrec := ih (q.1, KeyType.ofStr p.2)
        (fun p' hp' he => h p' (List.mem_cons_of_mem p hp') he) hu
      exact absurd hrec.1 hp2
    · have hbq : ¬ (q.1 == p.1) = true := by simp [hb]
      rw [hstep, if_neg hbq] at hu
      have hr := ih q (fun p' hp' he => h p' (List.mem_cons_of_mem p hp') he) hu
      refine ⟨hr.1, ?_⟩
      intro p' hp'
      rcases List.mem_cons.mp hp' with h1 | h2
      · subst h1
        exact fun e => hb e.symm
      · exact hr.2 p' h2

/-- After a non-empty batch whose results are all recognized types, the
selection for the same prefix is empty: every previously selected key is
no longer `Unknown`, and every other key is untouched. -/
theorem fill_select_after (s : ServerState) (typeOf : String → String)
    (pre : String)
    (hOf : ∀ k ∈ fill_select pre s,
      KeyType.ofStr (typeOf k) ≠ KeyType.unknown) :
    fill_select pre
      (fill_apply ((fill_select pre s).map (fun k => (k, typeOf k))) s) =
      [] := by
  set types := (fill_select pre s).map (fun k => (k, typeOf k)) with htypes
  rw [List.eq_nil_iff_forall_not_mem]
  intro k hk
  unfold fill_select at hk
  rw [mem_sortStrings, List.mem_filterMap] at hk
  obtain ⟨q', hq', hfq'⟩ := hk
  have hkeys : (fill_apply types s).keys = s.keys.map (pointUpd types) := by
    show types.foldl _ s.keys = _
    exact fill_apply_keys types s.keys
  rw [hkeys, List.mem_map] at hq'
  obtain ⟨q, hq, rfl⟩ := hq'
  by_cases hu : (pointUpd types q).2 = KeyType.unknown
  · have hpre : ∀ p ∈ types, p.1 = q.1 →
        KeyType.ofStr p.2 ≠ KeyType.unknown := by
      intro p hp he
      rw [htypes] at hp
      obtain ⟨k₀, hk₀, rfl⟩ := List.mem_map.mp hp
      exact hOf k₀ hk₀
    obtain ⟨hq2, hnone⟩ := pointUpd_unknown types q hpre hu
    have hfst : (pointUpd types q).1 = q.1 := pointUpd_fst types q
    have hpair : pointUpd types q = (q.1, KeyType.unknown) := by
      rw [← hfst, ← hu]
    rw [hpair] at hfq'
    have hfq : (match stripPre pre q.1 with
        | none => none
        | some suffix =>
          if containsChar suffix ':' then none else some q.1) = some k := by
      simpa using hfq'
    split at hfq
    · exact absurd hfq (by simp)
    · rename_i suffix hst
      split at hfq
      · exact absurd hfq (by simp)
      · rename_i hc
        have hq1 : q.1 ∈ fill_select pre s := by
          unfold fill_select
          rw [mem_sortStrings, List.mem_filterMap]
          refine ⟨q, hq, ?_⟩
          simp [hq2, hst, hc]
        have hmem : (q.1, typeOf q.1) ∈ types := by
          rw [htypes]
          exact List.mem_map_of_mem _ hq1
        exact hnone _ hmem rfl
  · have hbu : ((pointUpd types q).2 != KeyType.unknown) = true := by
      simpa using hu
    simp [hbu] at hfq'

theorem fill_key_types_of_empty (connOk : Bool) (typeOf : String → String)
    (pre : String) (s : ServerState)
    (h : (fill_select pre s).isEmpty) :
    fill_key_types connOk typeOf pre s = s := by
  unfold fill_key_types
  rw [if_pos h]

/-- C3 counterexample: the claim "a type-resolution batch whose results
assign every key the type it already has leaves `keys` unchanged and
does not change `treeVersion`" is false on the code: a batch over the
`Unknown` key "x" whose TYPE lookup resolves to `Unknown` again (empty
type name, as produced by `unwrap_or_default` on a failed lookup) leaves
`keys` unchanged but still regenerates the tree id, because the callback
regenerates it unconditionally on a successful batch.  This also refutes
the "treeVersion changes only if the key set or a type label changed"
direction of the claim. -/
theorem C3_counterexample :
    (fill_key_types true (fun _ => "") "" c3state).keys = c3state.keys ∧
    (fill_key_types true (fun _ => "") "" c3state).key_tree_id ≠
      c3state.key_tree_id := by
  constructor
  · decide
  · decide

/-- C3 as amended: re-running type resolution is idempotent once a batch
whose results are all recognized (non-`Unknown`) types has been applied:
the second run selects nothing (only `Unknown` keys are selected) and
returns before spawning, leaving `keys` and the tree id unchanged. -/
theorem C3_amended_fill_idempotent (s : ServerState)
    (typeOf : String → String) (pre : String)
    (hOf : ∀ k ∈ fill_select pre s,
      KeyType.ofStr (typeOf k) ≠ KeyType.unknown) :
    fill_key_types true typeOf pre (fill_key_types true typeOf pre s) =
      fill_key_types true typeOf pre s := by
  by_cases he : (fill_select pre s).isEmpty
  · have h1 : fill_key_types true typeOf pre s = s :=
      fill_key_types_of_empty true typeOf pre s he
    rw [h1, h1]
  · have h1 : fill_key_types true typeOf pre s =
        fill_apply ((fill_select pre s).map (fun k => (k, typeOf k))) s := by
      unfold fill_key_types
      rw [if_neg he]
      rfl
    have h2 : (fill_select pre (fill_key_types true typeOf pre s)).isEmpty :=
      by rw [h1, fill_select_after s typeOf pre hOf]; rfl
    exact fill_key_types_of_empty true typeOf pre _ h2

/-- Witness for C3's amended theorem at a concrete input. -/
theorem C3_amended_fill_idempotent_witness :
    (∀ k ∈ fill_select "" c3state,
      KeyType.ofStr ((fun _ => "string") k) ≠ KeyType.unknown) ∧
    fill_key_types true (fun _ => "string") ""
        (fill_key_types true (fun _ => "string") "" c3state) =
      fill_key_types true (fun _ => "string") "" c3state :=
  ⟨by decide,
   C3_amended_fill_idempotent c3state (fun _ => "string") "" (by decide)⟩

/-! ### C6 -/

/-- C6 counterexample: the claim "if the store's TTL query returns -2
... no type or value fetch is attempted" is false on the code: the TYPE
command is pipelined together with TTL in the initial request, so a type
fetch is attempted before the TTL result can be inspected, also when it
turns out to be -2. -/
theorem C6_counterexample :
    (select_key_task "k" true true "string" (-2) 0
        (Except.error Err.store) (Except.error Err.store)).1 =
      [StoreCmd.typeCmd "k", StoreCmd.ttlCmd "k"] ∧
    StoreCmd.typeCmd "k" ∈
      (select_key_task "k" true true "string" (-2) 0
        (Except.error Err.store) (Except.error Err.store)).1 := by
  exact ⟨rfl, by decide⟩

theorem select_key_task_expire (key typeResp : String) (ttlResp now : Int)
    (sf lf : Except Err RedisValue) (h2 : ttlResp ≠ -2) (v : RedisValue)
    (hv : (select_key_task key true true typeResp ttlResp now sf lf).2 =
      Except.ok v) :
    v.expire_at = (if ttlResp = -1 then some (-1)
      else if 0 ≤ ttlResp then some (now + ttlResp) else none) := by
  unfold select_key_task at hv
  rw [if_neg (by simp), if_neg (by simp), if_neg h2] at hv
  cases hk : KeyType.ofStr typeResp <;> rw [hk] at hv <;>
    first
      | (cases sf with
          | error e => simp at hv
          | ok w =>
            simp at hv
            rw [← hv])
      | (cases lf with
          | error e => simp at hv
          | ok w =>
            simp at hv
            rw [← hv])
      | simp at hv

/-- C6 as amended: TYPE and TTL are issued together in one pipelined
request; a TTL of -2 yields an empty default value tagged
`expire_at = -2` with no value-fetch command issued (the pipelined type
result is discarded); when the fetch succeeds, TTL -1 yields
`expire_at = -1` and TTL t ≥ 0 yields `expire_at = now + t`. -/
theorem C6_amended_ttl_semantics (key typeResp : String) (ttlResp now : Int)
    (sf lf : Except Err RedisValue) :
    (ttlResp = -2 →
      select_key_task key true true typeResp ttlResp now sf lf =
        ([StoreCmd.typeCmd key, StoreCmd.ttlCmd key],
         Except.ok { RedisValue.dflt with expire_at := some (-2) })) ∧
    (ttlResp = -1 → ∀ v,
      (select_key_task key true true typeResp ttlResp now sf lf).2 =
        Except.ok v → v.expire_at = some (-1)) ∧
    (0 ≤ ttlResp → ∀ v,
      (select_key_task key true true typeResp ttlResp now sf lf).2 =
        Except.ok v → v.expire_at = some (now + ttlResp)) := by
  refine ⟨?_, ?_, ?_⟩
  · intro h
    subst h
    rfl
  · intro h v hv
    subst h
    rw [select_key_task_expire key typeResp (-1) now sf lf (by decide) v hv]
    rfl
  · intro h v hv
    have h2 : ttlResp ≠ -2 := by omega
    have h1 : ttlResp ≠ -1 := by omega
    rw [select_key_task_expire key typeResp ttlResp now sf lf h2 v hv,
      if_neg h1, if_pos h]

/-- Witness for C6's amended theorem at concrete inputs. -/
theorem C6_amended_ttl_semantics_witness :
    select_key_task "k" true true "string" (-2) 0
        (Except.ok RedisValue.dflt) (Except.error Err.store) =
      ([StoreCmd.typeCmd "k", StoreCmd.ttlCmd "k"],
       Except.ok { RedisValue.dflt with expire_at := some (-2) }) ∧
    ({ RedisValue.dflt with expire_at := some (-1) } : RedisValue).expire_at =
      some (-1) :=
  ⟨(C6_amended_ttl_semantics "k" "string" (-2) 0 (Except.ok RedisValue.dflt)
      (Except.error Err.store)).1 rfl,
   (C6_amended_ttl_semantics "k" "string" (-1) 0 (Except.ok RedisValue.dflt)
      (Except.error Err.store)).2.1 rfl
     { RedisValue.dflt with expire_at := some (-1) } rfl⟩

/-! ### Scan-run equation and frame lemmas -/

@[simp] theorem extend_keys_server (s : ServerState) (ks : List String) :
    (extend_keys s ks).server = s.server := rfl

@[simp] theorem extend_keys_keyword (s : ServerState) (ks : List String) :
    (extend_keys s ks).keyword = s.keyword := rfl

@[simp] theorem extend_keys_cursors (s : ServerState) (ks : List String) :
    (extend_keys s ks).cursors = s.cursors := rfl

@[simp] theorem extend_keys_scan_times (s : ServerState) (ks : List String) :
    (extend_keys s ks).scan_times = s.scan_times := rfl

@[simp] theorem extend_keys_scan_completed (s : ServerState)
    (ks : List String) :
    (extend_keys s ks).scan_completed = s.scan_completed := rfl

@[simp] theorem extend_keys_scaning (s : ServerState) (ks : List String) :
    (extend_keys s ks).scaning = s.scaning := rfl

theorem scan_keys_run_nil (server keyword : String) (s : ServerState)
    (h1 : s.server = server) (h2 : s.keyword = keyword) :
    scan_keys_run server keyword [] s = ⟨s, 0, true, false, false⟩ := by
  unfold scan_keys_run
  rw [if_pos ⟨h1, h2⟩]

theorem scan_keys_run_stale (server keyword : String)
    (responses : List PageResult) (s : ServerState)
    (h : ¬ (s.server = server ∧ s.keyword = keyword)) :
    scan_keys_run server keyword responses s = ⟨s, 0, false, false, false⟩ := by
  unfold scan_keys_run
  rw [if_neg h]

theorem scan_keys_run_cons (server keyword : String) (r : PageResult)
    (rest : List PageResult) (s : ServerState)
    (h1 : s.server = server) (h2 : s.keyword = keyword) :
    scan_keys_run server keyword (r :: rest) s =
      if (scan_page_apply r s).cursors.isSome ∧
          (scan_page_apply r s).keys.length <
            (s.scan_times + 1) * DEFAULT_SCAN_RESULT_MAX then
        { state := (scan_keys_run server keyword rest (scan_page_apply r s)).state
          pages := (scan_keys_run server keyword rest (scan_page_apply r s)).pages + 1
          pendingReq :=
            (scan_keys_run server keyword rest (scan_page_apply r s)).pendingReq
          finished :=
            (scan_keys_run server keyword rest (scan_page_apply r s)).finished
          fillTriggered :=
            (scan_keys_run server keyword rest (scan_page_apply r s)).fillTriggered }
      else ⟨{ scan_page_apply r s with scaning := false }, 1, false, true, true⟩ := by
  conv_lhs => unfold scan_keys_run
  rw [if_pos ⟨h1, h2⟩]

theorem scan_page_apply_server (r : PageResult) (s : ServerState) :
    (scan_page_apply r s).server = s.server := by
  cases r with
  | err => rfl
  | ok cs ks => by_cases h : cs.sum = 0 <;> simp [scan_page_apply, h]

theorem scan_page_apply_keyword (r : PageResult) (s : ServerState) :
    (scan_page_apply r s).keyword = s.keyword := by
  cases r with
  | err => rfl
  | ok cs ks => by_cases h : cs.sum = 0 <;> simp [scan_page_apply, h]

theorem scan_page_apply_scan_times (r : PageResult) (s : ServerState) :
    (scan_page_apply r s).scan_times = s.scan_times := by
  cases r with
  | err => rfl
  | ok cs ks => by_cases h : cs.sum = 0 <;> simp [scan_page_apply, h]

/-- A page response that leaves a cursor stored did not change the
completion flag: only a zero-sum cursor set (which clears the cursor)
sets it. -/
theorem scan_page_apply_completed_of_some (r : PageResult) (s : ServerState)
    (h : (scan_page_apply r s).cursors.isSome = true) :
    (scan_page_apply r s).scan_completed = s.scan_completed := by
  cases r with
  | err => rfl
  | ok cs ks =>
    by_cases hs : cs.sum = 0
    · simp [scan_page_apply, hs] at h
    · simp [scan_page_apply, hs]

/-! ### C8 -/

theorem scan_run_completed_inv : ∀ (responses : List PageResult)
    (server keyword : String) (s : ServerState),
    s.server = server → s.keyword = keyword → s.scan_completed = false →
    (scan_keys_run server keyword responses s).state.scan_completed = true →
    (scan_keys_run server keyword responses s).state.cursors = none := by
  intro responses
  induction responses with
  | nil =>
    intro server keyword s h1 h2 h hc
    rw [scan_keys_run_nil server keyword s h1 h2] at hc
    rw [h] at hc
    cases hc
  | cons r rest ih =>
    intro server keyword s h1 h2 h hc
    rw [scan_keys_run_cons server keyword r rest s h1 h2] at hc ⊢
    by_cases hcont : (scan_page_apply r s).cursors.isSome ∧
        (scan_page_apply r s).keys.length <
          (s.scan_times + 1) * DEFAULT_SCAN_RESULT_MAX
    · rw [if_pos hcont] at hc ⊢
      have hcomp : (scan_page_apply r s).scan_completed = false :=
        (scan_page_apply_completed_of_some r s hcont.1).trans h
      exact ih server keyword (scan_page_apply r s)
        ((scan_page_apply_server r s).trans h1)
        ((scan_page_apply_keyword r s).trans h2) hcomp hc
    · rw [if_neg hcont] at hc ⊢
      cases r with
      | err => rfl
      | ok cs ks =>
        by_cases hs : cs.sum = 0
        · show (scan_page_apply (PageResult.ok cs ks) s).cursors = none
          simp [scan_page_apply, hs]
        · have hcc : (scan_page_apply (PageResult.ok cs ks) s).scan_completed =
              s.scan_completed := by simp [scan_page_apply, hs]
          have : ({ scan_page_apply (PageResult.ok cs ks) s with
              scaning := false } : ServerState).scan_completed =
              s.scan_completed := hcc
          rw [this, h] at hc
          cases hc

/-- C8: in every state reachable by applying scan page responses from a
state whose scan is not yet completed, `scan_completed = true` implies
no cursor set is stored (reachable states are exactly the final states
of runs on response-list prefixes); moreover a page response whose
cursors sum to zero sets the completion flag and clears the cursor, and
a response with a non-zero sum stores the returned cursor set without
touching the completion flag. -/
theorem C8_completed_invariant (server keyword : String) (s : ServerState)
    (responses : List PageResult) (h1 : s.server = server)
    (h2 : s.keyword = keyword) (h : s.scan_completed = false) :
    ((scan_keys_run server keyword responses s).state.scan_completed = true →
      (scan_keys_run server keyword responses s).state.cursors = none) ∧
    (∀ cs ks, List.sum cs = 0 →
      (scan_page_apply (PageResult.ok cs ks) s).scan_completed = true ∧
      (scan_page_apply (PageResult.ok cs ks) s).cursors = none) ∧
    (∀ cs ks, List.sum cs ≠ 0 →
      (scan_page_apply (PageResult.ok cs ks) s).cursors = some cs ∧
      (scan_page_apply (PageResult.ok cs ks) s).scan_completed =
        s.scan_completed) := by
  refine ⟨scan_run_completed_inv responses server keyword s h1 h2 h, ?_, ?_⟩
  · intro cs ks hs
    constructor <;> simp [scan_page_apply, hs]
  · intro cs ks hs
    constructor <;> simp [scan_page_apply, hs]

/-- Witness for C8 at concrete inputs: one non-zero page followed by a
zero-sum page completes the scan with no cursor stored. -/
theorem C8_completed_invariant_witness :
    ((scan_keys_run "srv" "" [PageResult.ok [5] ["a"], PageResult.ok [0] ["b"]]
        { baseState with scaning := true }).state.scan_completed = true →
      (scan_keys_run "srv" "" [PageResult.ok [5] ["a"], PageResult.ok [0] ["b"]]
        { baseState with scaning := true }).state.cursors = none) ∧
    ((scan_page_apply (PageResult.ok [0] ["b"])
        { baseState with scaning := true }).scan_completed = true ∧
      (scan_page_apply (PageResult.ok [0] ["b"])
        { baseState with scaning := true }).cursors = none) :=
  ⟨(C8_completed_invariant "srv" "" { baseState with scaning := true }
      [PageResult.ok [5] ["a"], PageResult.ok [0] ["b"]] rfl rfl rfl).1,
   (C8_completed_invariant "srv" "" { baseState with scaning := true }
      [PageResult.ok [5] ["a"], PageResult.ok [0] ["b"]] rfl rfl rfl).2.1
     [0] ["b"] rfl⟩

/-! ### C2 -/

/-- After applying one page response, the chain leaves a further page
request outstanding exactly when a cursor is stored and the key count is
strictly below `1000 * (round + 1)`. -/
theorem scan_step_pending (server keyword : String) (s : ServerState)
    (r : PageResult) (h1 : s.server = server) (h2 : s.keyword = keyword) :
    (scan_keys_run server keyword [r] s).pendingReq = true ↔
      ((scan_page_apply r s).cursors.isSome = true ∧
        (scan_page_apply r s).keys.length < 1000 * (s.scan_times + 1)) := by
  have hmx : (s.scan_times + 1) * DEFAULT_SCAN_RESULT_MAX =
      1000 * (s.scan_times + 1) := Nat.mul_comm _ _
  rw [scan_keys_run_cons server keyword r [] s h1 h2]
  by_cases hcont : (scan_page_apply r s).cursors.isSome = true ∧
      (scan_page_apply r s).keys.length <
        (s.scan_times + 1) * DEFAULT_SCAN_RESULT_MAX
  · rw [if_pos hcont, scan_keys_run_nil server keyword _
      ((scan_page_apply_server r s).trans h1)
      ((scan_page_apply_keyword r s).trans h2)]
    exact ⟨fun _ => ⟨hcont.1, hmx ▸ hcont.2⟩, fun _ => rfl⟩
  · rw [if_neg hcont]
    constructor
    · intro hfalse
      cases hfalse
    · intro hc
      exact absurd ⟨hc.1, hmx.symm ▸ hc.2⟩ hcont

theorem scan_run_cap_zero : ∀ (responses : List PageResult)
    (server keyword : String) (s : ServerState),
    s.server = server → s.keyword = keyword → s.scan_times = 0 →
    (∀ p ∈ responses, ∃ cs ks, p = PageResult.ok cs ks ∧ List.sum cs ≠ 0) →
    (scan_keys_run server keyword responses s).finished = true →
    1000 ≤ (scan_keys_run server keyword responses s).state.keys.length := by
  intro responses
  induction responses with
  | nil =>
    intro server keyword s h1 h2 ht hall hf
    rw [scan_keys_run_nil server keyword s h1 h2] at hf
    cases hf
  | cons r rest ih =>
    intro server keyword s h1 h2 ht hall hf
    obtain ⟨cs, ks, rfl, hsum⟩ := hall r (List.mem_cons_self r rest)
    rw [scan_keys_run_cons server keyword _ rest s h1 h2] at hf ⊢
    by_cases hcont : (scan_page_apply (PageResult.ok cs ks) s).cursors.isSome =
        true ∧
        (scan_page_apply (PageResult.ok cs ks) s).keys.length <
          (s.scan_times + 1) * DEFAULT_SCAN_RESULT_MAX
    · rw [if_pos hcont] at hf ⊢
      exact ih server keyword (scan_page_apply (PageResult.ok cs ks) s)
        ((scan_page_apply_server _ s).trans h1)
        ((scan_page_apply_keyword _ s).trans h2)
        ((scan_page_apply_scan_times _ s).trans ht)
        (fun p hp => hall p (List.mem_cons_of_mem _ hp)) hf
    · rw [if_neg hcont]
      have hsome : (scan_page_apply (PageResult.ok cs ks) s).cursors.isSome =
          true := by
        simp [scan_page_apply, hsum]
      have hlen : ¬ (scan_page_apply (PageResult.ok cs ks) s).keys.length <
          (s.scan_times + 1) * DEFAULT_SCAN_RESULT_MAX :=
        fun hl => hcont ⟨hsome, hl⟩
      rw [ht] at hlen
      have hone : (0 + 1) * DEFAULT_SCAN_RESULT_MAX = 1000 := rfl
      rw [hone] at hlen
      show 1000 ≤ (scan_page_apply (PageResult.ok cs ks) s).keys.length
      omega

/-- C2: (a) automatic continuation issues the next page iff a cursor is
stored and the cumulative key count is strictly below
`1000 * (round + 1)`; (b) with round 0 and a page source that always
returns non-zero cursor sets, a chain that stopped has accumulated at
least 1000 keys; (c) scanMore on a non-completed scan increments the
round and resumes the chain, whose first continuation then uses the cap
2000. -/
theorem C2_scan_cap_round (server keyword : String) (s : ServerState)
    (r : PageResult) (responses : List PageResult)
    (h1 : s.server = server) (h2 : s.keyword = keyword) :
    ((scan_keys_run server keyword [r] s).pendingReq = true ↔
      ((scan_page_apply r s).cursors.isSome = true ∧
        (scan_page_apply r s).keys.length < 1000 * (s.scan_times + 1))) ∧
    (s.scan_times = 0 →
      (∀ p ∈ responses, ∃ cs ks, p = PageResult.ok cs ks ∧ List.sum cs ≠ 0) →
      (scan_keys_run server keyword responses s).finished = true →
      1000 ≤ (scan_keys_run server keyword responses s).state.keys.length) ∧
    (s.scan_completed = false →
      scan_next responses s =
        scan_keys_run s.server s.keyword responses
          { s with scan_times := s.scan_times + 1 } ∧
      (s.scan_times = 0 →
        ((scan_next [r] s).pendingReq = true ↔
          ((scan_page_apply r { s with scan_times := 1 }).cursors.isSome =
              true ∧
            (scan_page_apply r
              { s with scan_times := 1 }).keys.length < 2000)))) := by
  refine ⟨scan_step_pending server keyword s r h1 h2,
    fun ht hall => scan_run_cap_zero responses server keyword s h1 h2 ht hall,
    fun hnc => ⟨by simp [scan_next, hnc], fun ht => ?_⟩⟩
  have he : scan_next [r] s =
      scan_keys_run s.server s.keyword [r] { s with scan_times := 1 } := by
    simp [scan_next, hnc, ht]
  rw [he]
  have := scan_step_pending s.server s.keyword { s with scan_times := 1 } r
    rfl rfl
  simpa using this

/-- Witness for C2 at concrete inputs. -/
theorem C2_scan_cap_round_witness :
    (scan_keys_run "srv" "" [PageResult.ok [4] ["a"]]
        { baseState with scaning := true }).pendingReq = true ↔
      ((scan_page_apply (PageResult.ok [4] ["a"])
          { baseState with scaning := true }).cursors.isSome = true ∧
        (scan_page_apply (PageResult.ok [4] ["a"])
            { baseState with scaning := true }).keys.length <
          1000 * (({ baseState with
            scaning := true } : ServerState).scan_times + 1)) :=
  (C2_scan_cap_round "srv" "" { baseState with scaning := true }
    (PageResult.ok [4] ["a"]) [] rfl rfl).1

/-! ### C10 -/

/-- C10: prefix expansion is all-or-nothing: when any page request
inside `scan_prefix`'s private loop (at most 20 rounds) fails, no keys
from any page of that loop are merged and the prefix is not marked
loaded (the state keeps its keys and loaded prefixes, only
`last_operated_at` was touched before spawning); only when the whole
loop succeeds are all accumulated keys merged in one step and the
prefix marked loaded.  In both cases type resolution for the prefix is
triggered. -/
theorem C10_scan_prefix_atomic (pre : String) (responses : List PageResult)
    (t : Int) (s : ServerState)
    (h1 : s.loaded_prefixes.contains pre = false)
    (h2 : s.scan_completed = false) :
    (scan_prefix_loop 20 [] responses = some (Except.error ()) →
      (scan_prefix_op pre responses t s).1.keys = s.keys ∧
      (scan_prefix_op pre responses t s).1.loaded_prefixes =
        s.loaded_prefixes ∧
      (scan_prefix_op pre responses t s).2 = true) ∧
    (∀ ks, scan_prefix_loop 20 [] responses = some (Except.ok ks) →
      (scan_prefix_op pre responses t s).1 =
        extend_keys { s with
          last_operated_at := t,
          loaded_prefixes := pre :: s.loaded_prefixes } ks ∧
      (scan_prefix_op pre responses t s).2 = true) := by
  have h1' : ¬ pre ∈ s.loaded_prefixes := by simpa using h1
  constructor
  · intro herr
    refine ⟨?_, ?_, ?_⟩ <;> simp [scan_prefix_op, h1', h2, herr]
  · intro ks hok
    constructor <;> simp [scan_prefix_op, h1', h2, hok]

/-- Witness for C10 at concrete inputs: a failing first page, and a
completing first page. -/
theorem C10_scan_prefix_atomic_witness :
    ((scan_prefix_op "p" [PageResult.err] 3 baseState).1.keys =
        baseState.keys ∧
      (scan_prefix_op "p" [PageResult.err] 3 baseState).1.loaded_prefixes =
        baseState.loaded_prefixes) ∧
    (scan_prefix_op "p" [PageResult.ok [0] ["x"]] 3 baseState).1 =
      extend_keys { baseState with
        last_operated_at := 3,
        loaded_prefixes := ["p"] } ["x"] :=
  ⟨⟨((C10_scan_prefix_atomic "p" [PageResult.err] 3 baseState rfl rfl).1
      rfl).1,
    ((C10_scan_prefix_atomic "p" [PageResult.err] 3 baseState rfl rfl).1
      rfl).2.1⟩,
   ((C10_scan_prefix_atomic "p" [PageResult.ok [0] ["x"]] 3 baseState rfl
      rfl).2 ["x"] rfl).1⟩

/-! ### C1 -/

theorem stripId_server {s t : ServerState} (h : stripId s = stripId t) :
    s.server = t.server := by
  have h0 := congrArg ServerState.server h
  exact h0

theorem stripId_keyword {s t : ServerState} (h : stripId s = stripId t) :
    s.keyword = t.keyword := by
  have h0 := congrArg ServerState.keyword h
  exact h0

theorem stripId_cursors {s t : ServerState} (h : stripId s = stripId t) :
    s.cursors = t.cursors := by
  have h0 := congrArg ServerState.cursors h
  exact h0

theorem stripId_keys {s t : ServerState} (h : stripId s = stripId t) :
    s.keys = t.keys := by
  have h0 := congrArg ServerState.keys h
  exact h0

theorem stripId_scan_times {s t : ServerState} (h : stripId s = stripId t) :
    s.scan_times = t.scan_times := by
  have h0 := congrArg ServerState.scan_times h
  exact h0

theorem stripId_page (r : PageResult) (s : ServerState) :
    stripId (scan_page_apply r s) = stripId (scan_page_apply r (stripId s)) := by
  cases r with
  | err => rfl
  | ok cs ks => by_cases h : cs.sum = 0 <;> simp [scan_page_apply, h] <;> rfl

theorem stripId_scaning_false (u v : ServerState) (huv : stripId u = stripId v) :
    stripId { u with scaning := false } = stripId { v with scaning := false } := by
  show ({ stripId u with scaning := false } : ServerState) =
    { stripId v with scaning := false }
  rw [huv]

theorem scan_keys_run_congr : ∀ (responses : List PageResult)
    (server keyword : String) (s t : ServerState),
    stripId s = stripId t →
    stripId (scan_keys_run server keyword responses s).state =
        stripId (scan_keys_run server keyword responses t).state ∧
      (scan_keys_run server keyword responses s).pages =
        (scan_keys_run server keyword responses t).pages ∧
      (scan_keys_run server keyword responses s).pendingReq =
        (scan_keys_run server keyword responses t).pendingReq ∧
      (scan_keys_run server keyword responses s).finished =
        (scan_keys_run server keyword responses t).finished ∧
      (scan_keys_run server keyword responses s).fillTriggered =
        (scan_keys_run server keyword responses t).fillTriggered := by
  intro responses
  induction responses with
  | nil =>
    intro server keyword s t h
    have hsv : s.server = t.server := stripId_server h
    have hkw : s.keyword = t.keyword := stripId_keyword h
    by_cases hg : s.server = server ∧ s.keyword = keyword
    · have hg' : t.server = server ∧ t.keyword = keyword :=
        ⟨hsv ▸ hg.1, hkw ▸ hg.2⟩
      rw [scan_keys_run_nil _ _ _ hg.1 hg.2,
        scan_keys_run_nil _ _ _ hg'.1 hg'.2]
      exact ⟨h, rfl, rfl, rfl, rfl⟩
    · have hg' : ¬ (t.server = server ∧ t.keyword = keyword) := by
        rw [← hsv, ← hkw]
        exact hg
      rw [scan_keys_run_stale _ _ _ _ hg, scan_keys_run_stale _ _ _ _ hg']
      exact ⟨h, rfl, rfl, rfl, rfl⟩
  | cons r rest ih =>
    intro server keyword s t h
    have hsv : s.server = t.server := stripId_server h
    have hkw : s.keyword = t.keyword := stripId_keyword h
    by_cases hg : s.server = server ∧ s.keyword = keyword
    · have hg' : t.server = server ∧ t.keyword = keyword :=
        ⟨hsv ▸ hg.1, hkw ▸ hg.2⟩
      rw [scan_keys_run_cons _ _ _ _ _ hg.1 hg.2,
        scan_keys_run_cons _ _ _ _ _ hg'.1 hg'.2]
      have hp : stripId (scan_page_apply r s) = stripId (scan_page_apply r t) := by
        rw [stripId_page r s, stripId_page r t, h]
      have hcur : (scan_page_apply r s).cursors = (scan_page_apply r t).cursors :=
        stripId_cursors hp
      have hkey : (scan_page_apply r s).keys = (scan_page_apply r t).keys :=
        stripId_keys hp
      have hti : s.scan_times = t.scan_times := stripId_scan_times h
      have hcond : ((scan_page_apply r s).cursors.isSome = true ∧
          (scan_page_apply r s).keys.length <
            (s.scan_times + 1) * DEFAULT_SCAN_RESULT_MAX) ↔
          ((scan_page_apply r t).cursors.isSome = true ∧
          (scan_page_apply r t).keys.length <
            (t.scan_times + 1) * DEFAULT_SCAN_RESULT_MAX) := by
        rw [hcur, hkey, hti]
      by_cases hc : (scan_page_apply r s).cursors.isSome = true ∧
          (scan_page_apply r s).keys.length <
            (s.scan_times + 1) * DEFAULT_SCAN_RESULT_MAX
      · rw [if_pos hc, if_pos (hcond.mp hc)]
        obtain ⟨e1, e2, e3, e4, e5⟩ := ih server keyword _ _ hp
        exact ⟨e1, by rw [e2], e3, e4, e5⟩
      · rw [if_neg hc, if_neg (fun hx => hc (hcond.mpr hx))]
        exact ⟨stripId_scaning_false _ _ hp, rfl, rfl, rfl, rfl⟩
    · have hg' : ¬ (t.server = server ∧ t.keyword = keyword) := by
        rw [← hsv, ← hkw]
        exact hg
      rw [scan_keys_run_stale _ _ _ _ hg, scan_keys_run_stale _ _ _ _ hg']
      exact ⟨h, rfl, rfl, rfl, rfl⟩

theorem deliver_page_congr (p : PendingScan) (r : PageResult)
    (rest : List PageResult) (s t : ServerState)
    (h : stripId s = stripId t) :
    stripId (deliver_page p r rest s).state =
      stripId (deliver_page p r rest t).state := by
  have hsv : s.server = t.server := stripId_server h
  have hkw : s.keyword = t.keyword := stripId_keyword h
  unfold deliver_page
  by_cases hg : s.server = p.server ∧ s.keyword = p.keyword
  · have hg' : t.server = p.server ∧ t.keyword = p.keyword :=
      ⟨hsv ▸ hg.1, hkw ▸ hg.2⟩
    rw [if_pos hg, if_pos hg']
    have hp : stripId (scan_page_apply r s) = stripId (scan_page_apply r t) := by
      rw [stripId_page r s, stripId_page r t, h]
    have hcur : (scan_page_apply r s).cursors = (scan_page_apply r t).cursors :=
      stripId_cursors hp
    have hkey : (scan_page_apply r s).keys = (scan_page_apply r t).keys :=
      stripId_keys hp
    have hcond : ((scan_page_apply r s).cursors.isSome = true ∧
        (scan_page_apply r s).keys.length < p.mx) ↔
        ((scan_page_apply r t).cursors.isSome = true ∧
        (scan_page_apply r t).keys.length < p.mx) := by
      rw [hcur, hkey]
    by_cases hc : (scan_page_apply r s).cursors.isSome = true ∧
        (scan_page_apply r s).keys.length < p.mx
    · rw [if_pos hc, if_pos (hcond.mp hc)]
      exact (scan_keys_run_congr rest p.server p.keyword _ _ hp).1
    · rw [if_neg hc, if_neg (fun hx => hc (hcond.mpr hx))]
      exact stripId_scaning_false _ _ hp
  · have hg' : ¬ (t.server = p.server ∧ t.keyword = p.keyword) := by
      rw [← hsv, ← hkw]
      exact hg
    rw [if_neg hg, if_neg hg']
    exact h

/-- C1: a superseded scan chain never mutates state.  First conjunct:
the generation guard at delivery — a page response whose captured
(connection identity, filter) pair no longer matches the current state
is dropped without any state mutation, page application or continuation.
Second conjunct: in the scenario "start scan with filter a; before its
page resolves, start scan with filter b; a's page arrives", a's page is
dropped and the state is untouched.  Third conjunct: the subsequent run
of chain b from that state is observably identical to the run of chain b
in a world where chain a was never started, so the observable state
reflects only filter b's effects. -/
theorem C1_superseded_scan_dropped (s0 : ServerState) (a b : String)
    (hab : a ≠ b) (rA rB : PageResult) (restB : List PageResult) :
    (∀ (p : PendingScan) (r : PageResult) (rest : List PageResult)
        (u : ServerState),
      ¬ (u.server = p.server ∧ u.keyword = p.keyword) →
      deliver_page p r rest u = ⟨u, 0, false, false, false⟩) ∧
    deliver_page (scan_start a s0).2 rA []
        (scan_start b (scan_start a s0).1).1 =
      ⟨(scan_start b (scan_start a s0).1).1, 0, false, false, false⟩ ∧
    stripId (deliver_page (scan_start b (scan_start a s0).1).2 rB restB
        (scan_start b (scan_start a s0).1).1).state =
      stripId (deliver_page (scan_start b s0).2 rB restB
        (scan_start b s0).1).state := by
  have hdrop : ∀ (p : PendingScan) (r : PageResult) (rest : List PageResult)
      (u : ServerState),
      ¬ (u.server = p.server ∧ u.keyword = p.keyword) →
      deliver_page p r rest u = ⟨u, 0, false, false, false⟩ := by
    intro p r rest u hu
    unfold deliver_page
    rw [if_neg hu]
  refine ⟨hdrop, ?_, ?_⟩
  · exact hdrop (scan_start a s0).2 rA [] (scan_start b (scan_start a s0).1).1
      (fun hc => hab hc.2.symm)
  · exact deliver_page_congr _ rB restB _ _ rfl

/-- Witness for C1 at concrete inputs. -/
theorem C1_superseded_scan_dropped_witness :
    ("a" : String) ≠ "b" ∧
    deliver_page (scan_start "a" baseState).2 (PageResult.ok [1] ["x"]) []
        (scan_start "b" (scan_start "a" baseState).1).1 =
      ⟨(scan_start "b" (scan_start "a" baseState).1).1, 0, false, false,
        false⟩ ∧
    stripId (deliver_page (scan_start "b" (scan_start "a" baseState).1).2
        (PageResult.ok [0] ["y"]) []
        (scan_start "b" (scan_start "a" baseState).1).1).state =
      stripId (deliver_page (scan_start "b" baseState).2
        (PageResult.ok [0] ["y"]) [] (scan_start "b" baseState).1).state :=
  ⟨by decide,
   (C1_superseded_scan_dropped baseState "a" "b" (by decide)
      (PageResult.ok [1] ["x"]) (PageResult.ok [0] ["y"]) []).2.1,
   (C1_superseded_scan_dropped baseState "a" "b" (by decide)
      (PageResult.ok [1] ["x"]) (PageResult.ok [0] ["y"]) []).2.2⟩

end Zedis
